import Mathlib

/-!
Verification development for the loan amortization engine in src/app.js.

The embedding uses real numbers for the JavaScript number type, with the
decimal literals of the source (0.0001, 1e-12) rendered exactly as rationals.
The JavaScript value Infinity returned by calculateRemainingMonths is
rendered as the none case of an Option; every caller in the source guards
the returned value with isFinite before using it, and those guards become
matches on the Option.
-/

namespace LoanApp

noncomputable section

/-- Translation of calculateEMI, src/app.js lines 25 to 32. -/
def calculateEMI (principal monthlyRate : ℝ) (months : ℤ) : ℝ :=
  if months ≤ 0 then 0
  else if principal ≤ 0 then 0
  else if monthlyRate = 0 then principal / (months : ℝ)
  else
    let r := monthlyRate
    let pow := (1 + r) ^ months
    principal * r * pow / (pow - 1)

/-- Translation of calculateRemainingMonths, src/app.js lines 38 to 51.
The none result stands for the JavaScript value Infinity. -/
def calculateRemainingMonths (principal emi monthlyRate : ℝ) : Option ℝ :=
  if principal ≤ 0 then some 0
  else if emi ≤ 0 then none
  else if monthlyRate = 0 then some ((⌈principal / emi⌉ : ℤ) : ℝ)
  else if emi ≤ principal * monthlyRate + 1 / 10 ^ 12 then none
  else some (Real.log (emi / (emi - principal * monthlyRate)) /
    Real.log (1 + monthlyRate))

/-- Sparse override set read by applyUserChanges, src/app.js lines 889 to 911.
The maps of the source only hold strictly positive entries and the reads
use get(idx) with a fallback of 0, so disb and prepay are total functions
returning 0 where no entry is set; roi mirrors has and get on roiMap.
Keys are the data-idx attributes of the table rows, which renderSchedule
assigns as 0-based array positions. -/
structure Overrides where
  disb : ℕ → ℝ
  prepay : ℕ → ℝ
  roi : ℕ → Option ℝ

/-- The mutable walk variables of applyUserChanges, src/app.js
lines 913 to 926. -/
structure LoanState where
  balance : ℝ
  monthlyRate : ℝ
  currentEMI : ℝ
  targetRemainingMonths : ℤ
  totalInterest : ℝ
  totalDisbursements : ℝ

/-- One schedule row as pushed at src/app.js lines 1034 to 1044 (the
monthLabel display string is omitted as pure rendering). -/
structure ScheduleRow where
  monthIndex : ℕ
  emi : ℝ
  interest : ℝ
  principal : ℝ
  disbursement : ℝ
  prepayment : ℝ
  roiChange : Option ℝ
  balance : ℝ

/-- Interest accrued in the month, src/app.js line 942. -/
def monthInterest (s : LoanState) : ℝ := s.balance * s.monthlyRate

/-- Principal portion of the EMI with the two clamping steps of
src/app.js lines 945 to 950. -/
def monthPrincipal (s : LoanState) : ℝ :=
  let p0 := s.currentEMI - monthInterest s
  let p1 := if p0 < 0 then 0 else p0
  if p1 > s.balance then s.balance else p1

/-- Net disbursement of the month, src/app.js lines 956 to 958; the maps
are read at index monthCount - 1. -/
def netDisbursementOf (ov : Overrides) (monthCount : ℕ) : ℝ :=
  ov.disb (monthCount - 1) - ov.prepay (monthCount - 1)

/-- Balance update from the net disbursement, src/app.js lines 961 to 966. -/
def balanceAfterNet (balance1 net : ℝ) : ℝ :=
  if 0 < net then balance1 + net
  else if net < 0 then max 0 (balance1 + net)
  else balance1

/-- Balance of the month after EMI reduction and the net override delta. -/
def monthBalance2 (ov : Overrides) (monthCount : ℕ) (s : LoanState) : ℝ :=
  balanceAfterNet (s.balance - monthPrincipal s) (netDisbursementOf ov monthCount)

/-- Monthly rate in force after the ROI change check of src/app.js
lines 975 to 979. -/
def newRateOf (ov : Overrides) (monthCount : ℕ) (s : LoanState) : ℝ :=
  match ov.roi (monthCount - 1) with
  | some newAnnual => newAnnual / 12 / 100
  | none => s.monthlyRate

/-- Whether this month carries a rate change, src/app.js line 975. -/
def roiChangedOf (ov : Overrides) (monthCount : ℕ) : Bool :=
  (ov.roi (monthCount - 1)).isSome

/-- EMI re-derivation on a net disbursement, src/app.js lines 985 to 994.
The second component records the emiChanged flag. -/
def codeEmiUpd (ov : Overrides) (monthCount : ℕ) (s : LoanState) : ℝ × Bool :=
  if 0 < netDisbursementOf ov monthCount ∧
      1 / 10 ^ 4 < monthBalance2 ov monthCount s then
    let remainingMonths := s.targetRemainingMonths - (monthCount : ℤ)
    if 0 < remainingMonths then
      let newEMI := calculateEMI (monthBalance2 ov monthCount s)
        s.monthlyRate remainingMonths
      if 0 < newEMI then (newEMI, true) else (s.currentEMI, false)
    else (s.currentEMI, false)
  else (s.currentEMI, false)

/-- Tenure re-derivation, src/app.js lines 997 to 1031: first the block for
a rate change (whose two sub-branches of the source perform the identical
computation), then the block for a pure prepayment. -/
def codeTarget (ov : Overrides) (monthCount : ℕ) (s : LoanState) : ℤ :=
  let balance2 := monthBalance2 ov monthCount s
  let emi2 := (codeEmiUpd ov monthCount s).1
  let emiChanged := (codeEmiUpd ov monthCount s).2
  let rate2 := newRateOf ov monthCount s
  let target2 : ℤ :=
    if roiChangedOf ov monthCount then
      if emiChanged then
        match calculateRemainingMonths balance2 emi2 rate2 with
        | some m => (monthCount : ℤ) + ⌈m⌉
        | none => s.targetRemainingMonths
      else
        match calculateRemainingMonths balance2 emi2 rate2 with
        | some m => (monthCount : ℤ) + ⌈m⌉
        | none => s.targetRemainingMonths
    else s.targetRemainingMonths
  if netDisbursementOf ov monthCount < 0 ∧ roiChangedOf ov monthCount = false ∧
      emiChanged = false then
    match calculateRemainingMonths balance2 emi2 rate2 with
    | some m => (monthCount : ℤ) + ⌈m⌉
    | none => target2
  else target2

/-- One full iteration of the walk of applyUserChanges, src/app.js
lines 935 to 1044: accrue interest, reduce by the clamped principal, apply
the net override delta, apply a rate change, re-derive EMI and tenure, and
emit the row together with the updated state. -/
def monthStep (ov : Overrides) (monthCount : ℕ) (s : LoanState) :
    ScheduleRow × LoanState :=
  let interest := monthInterest s
  let principal := monthPrincipal s
  let prepay := ov.prepay (monthCount - 1)
  let disbursement := ov.disb (monthCount - 1)
  let balance2 := monthBalance2 ov monthCount s
  let totalDisbursements2 :=
    if 0 < netDisbursementOf ov monthCount then
      s.totalDisbursements + disbursement
    else s.totalDisbursements
  let row : ScheduleRow :=
    { monthIndex := monthCount
      emi := (codeEmiUpd ov monthCount s).1
      interest := interest
      principal := principal
      disbursement := disbursement
      prepayment := prepay
      roiChange := ov.roi (monthCount - 1)
      balance := max balance2 0 }
  (row,
    { balance := balance2
      monthlyRate := newRateOf ov monthCount s
      currentEMI := (codeEmiUpd ov monthCount s).1
      targetRemainingMonths := codeTarget ov monthCount s
      totalInterest := s.totalInterest + interest
      totalDisbursements := totalDisbursements2 })

/-- The for loop of applyUserChanges, src/app.js lines 930 to 1058.
The fuel argument counts the iterations still allowed under the cap
SAFE_MONTH_CAP; the loop keeps running while the balance exceeds 0.0001,
and the safety check after the push (lines 1047 to 1057) breaks out when
no progress was made. -/
def applyLoop (ov : Overrides) : ℕ → ℕ → LoanState →
    List ScheduleRow × LoanState
  | 0, _, s => ([], s)
  | fuel + 1, monthCount, s =>
    if 1 / 10 ^ 4 < s.balance then
      let rs := monthStep ov monthCount s
      if |rs.1.principal| < 1 / 10 ^ 12 ∧ rs.1.prepayment = 0 ∧
          rs.1.disbursement = 0 ∧ 1 / 10 ^ 4 < rs.2.balance then
        ([rs.1], rs.2)
      else
        let rest := applyLoop ov fuel (monthCount + 1) rs.2
        (rs.1 :: rest.1, rest.2)
    else ([], s)

/-- Result record of applyUserChanges: the schedule plus the aggregate
metrics published at src/app.js lines 1060 to 1090 (completionMonth is the
completionMonthIndex of line 1087). -/
structure ApplyResult where
  schedule : List ScheduleRow
  totalInterest : ℝ
  totalDisbursements : ℝ
  completionMonth : ℕ

/-- Translation of applyUserChanges, src/app.js lines 883 to 1099, with the
DOM reads abstracted into the explicit arguments: P and the annual rate are
the form values, originalTenure the parsed tenure, ov the three override
maps. SAFE_MONTH_CAP is 5000 (line 928). -/
def applyUserChanges (P annualRate : ℝ) (originalTenure : ℤ)
    (ov : Overrides) : ApplyResult :=
  let initialMonthlyRate := annualRate / 12 / 100
  let currentEMI := calculateEMI P initialMonthlyRate (max 1 originalTenure)
  let s0 : LoanState :=
    { balance := P
      monthlyRate := initialMonthlyRate
      currentEMI := currentEMI
      targetRemainingMonths := originalTenure
      totalInterest := 0
      totalDisbursements := 0 }
  let out := applyLoop ov 5000 1 s0
  { schedule := out.1
    totalInterest := out.2.totalInterest
    totalDisbursements := out.2.totalDisbursements
    completionMonth := out.1.length }

/-- The for loop of generateBaseline, src/app.js lines 792 to 813: the fuel
counts the remaining loop indices up to n, i is the 1-based month index, and
the loop breaks after the push once the balance drops to 0.0001 or below. -/
def baselineLoop (emi monthlyRate : ℝ) : ℕ → ℕ → ℝ → ℝ →
    List ScheduleRow × ℝ
  | 0, _, _, totalInterest => ([], totalInterest)
  | fuel + 1, i, balance, totalInterest =>
    let interest := balance * monthlyRate
    let p0 := emi - interest
    let p1 := if p0 < 0 then 0 else p0
    let principal := if p1 > balance then balance else p1
    let balance2 := balance - principal
    let row : ScheduleRow :=
      { monthIndex := i, emi := emi, interest := interest,
        principal := principal, disbursement := 0, prepayment := 0,
        roiChange := none, balance := max balance2 0 }
    if balance2 ≤ 1 / 10 ^ 4 then ([row], totalInterest + interest)
    else
      let rest := baselineLoop emi monthlyRate fuel (i + 1) balance2
        (totalInterest + interest)
      (row :: rest.1, rest.2)

/-- Translation of generateBaseline, src/app.js lines 780 to 843, restricted
to its computational part: the baseline rows and the baseline total
interest. -/
def generateBaseline (P annualRate : ℝ) (n : ℤ) : List ScheduleRow × ℝ :=
  let monthlyRate := annualRate / 12 / 100
  let baselineEMI := calculateEMI P monthlyRate n
  baselineLoop baselineEMI monthlyRate n.toNat 1 P 0

/-- Modelled from the words of claim C2 (spec section 4.2 step 7): the
EMI and tenure re-derivation policy exactly as the claim states it, as a
function of the quantities the claim mentions. If the net delta is positive
and the balance remains positive (positive in the working tolerance of the
engine, above 0.0001), the EMI is recomputed via calculateEMI with the old
rate over the months remaining until the target; a rate change recomputes
the target from the new rate and the current EMI, rounding up; a net
prepayment with no rate change and no EMI change recomputes the target;
otherwise both are unchanged. Holding the target when
calculateRemainingMonths signals Infinity is left as in the source since
the claim does not speak about that case. -/
def claimedPolicy (oldRate newRate : ℝ) (rateChanged : Bool)
    (netDelta balance emi : ℝ) (target : ℤ) (monthCount : ℕ) : ℝ × ℤ :=
  let emiStep : ℝ × Bool :=
    if 0 < netDelta ∧ 1 / 10 ^ 4 < balance then
      (calculateEMI balance oldRate (target - (monthCount : ℤ)), true)
    else (emi, false)
  let target2 : ℤ :=
    if rateChanged then
      match calculateRemainingMonths balance emiStep.1 newRate with
      | some m => (monthCount : ℤ) + ⌈m⌉
      | none => target
    else if netDelta < 0 ∧ emiStep.2 = false then
      match calculateRemainingMonths balance emiStep.1 newRate with
      | some m => (monthCount : ℤ) + ⌈m⌉
      | none => target
    else target
  (emiStep.1, target2)

/-- The policy of claim C2 amended by the two guards the source puts on the
EMI recompute: the recompute happens only when at least one month remains
until the target and the recomputed EMI is positive; otherwise the EMI is
held and the month counts as having no EMI change. -/
def amendedPolicy (oldRate newRate : ℝ) (rateChanged : Bool)
    (netDelta balance emi : ℝ) (target : ℤ) (monthCount : ℕ) : ℝ × ℤ :=
  let remaining := target - (monthCount : ℤ)
  let newEMI := calculateEMI balance oldRate remaining
  let emiStep : ℝ × Bool :=
    if 0 < netDelta ∧ 1 / 10 ^ 4 < balance ∧ 0 < remaining ∧ 0 < newEMI then
      (newEMI, true)
    else (emi, false)
  let target2 : ℤ :=
    if rateChanged then
      match calculateRemainingMonths balance emiStep.1 newRate with
      | some m => (monthCount : ℤ) + ⌈m⌉
      | none => target
    else if netDelta < 0 ∧ emiStep.2 = false then
      match calculateRemainingMonths balance emiStep.1 newRate with
      | some m => (monthCount : ℤ) + ⌈m⌉
      | none => target
    else target
  (emiStep.1, target2)

/-- Empty override set: no disbursement, no prepayment, no rate change. -/
def ovEmpty : Overrides := ⟨fun _ => 0, fun _ => 0, fun _ => none⟩

/-- Override set with one disbursement of 50 and one prepayment of 60, both
at key 0 (so both land in the first emitted month). -/
def ovMixed : Overrides :=
  ⟨fun i => if i = 0 then 50 else 0, fun i => if i = 0 then 60 else 0,
    fun _ => none⟩

/-- Override set with a single prepayment of 100 at key 1. -/
def ovPrepayKey1 : Overrides :=
  ⟨fun _ => 0, fun i => if i = 1 then 100 else 0, fun _ => none⟩

/-- Override set with a single disbursement of 500 at key 0. -/
def ovDisb500 : Overrides :=
  ⟨fun i => if i = 0 then 500 else 0, fun _ => 0, fun _ => none⟩

/-- Override set with a constant prepayment of 500 at every key. -/
def ovPrepay500 : Overrides :=
  ⟨fun _ => 0, fun _ => 500, fun _ => none⟩

/-- Walk state used to exhibit the gap in claim C2: balance 1000, zero rate,
EMI 100, and a target of one month, so that in month 1 no month remains
until the target. -/
def stateC2 : LoanState := ⟨1000, 0, 100, 1, 0, 0⟩

/-- Walk state used for claim C10: balance 100, zero rate, EMI 10. -/
def stateC10 : LoanState := ⟨100, 0, 10, 12, 0, 0⟩

/-- Walk state with a zero EMI, driving calculateRemainingMonths to its
Infinity case. -/
def stateEmiZero : LoanState := ⟨100, 0, 0, 5, 0, 0⟩

/-- The single row of the run with principal 1000, zero rate, tenure 1 and
no overrides. -/
def row0 : ScheduleRow := ⟨1, 1000, 0, 1000, 0, 0, none, 0⟩

/-- The single row of the run with principal 100, zero rate, tenure 1 and
the ovMixed override set. -/
def rowMixed : ScheduleRow := ⟨1, 100, 0, 100, 50, 60, none, 0⟩

/-- First row of the run with principal 300, zero rate, tenure 3 and the
ovPrepayKey1 override set. -/
def rowK1a : ScheduleRow := ⟨1, 100, 0, 100, 0, 0, none, 200⟩

/-- Second row of the same run: the prepayment stored at key 1 lands here,
in the month with monthIndex 2. -/
def rowK1b : ScheduleRow := ⟨2, 100, 0, 100, 0, 100, none, 0⟩

/-- The single row generateBaseline emits for a negative principal. -/
def rowNegP : ScheduleRow := ⟨1, 0, 0, -1000, 0, 0, none, 0⟩

end

/-! ## Helper lemmas -/

theorem applyLoop_zero (ov : Overrides) (mc : ℕ) (s : LoanState) :
    applyLoop ov 0 mc s = ([], s) := rfl

theorem applyLoop_succ (ov : Overrides) (fuel mc : ℕ) (s : LoanState) :
    applyLoop ov (fuel + 1) mc s =
      if 1 / 10 ^ 4 < s.balance then
        if |(monthStep ov mc s).1.principal| < 1 / 10 ^ 12 ∧
            (monthStep ov mc s).1.prepayment = 0 ∧
            (monthStep ov mc s).1.disbursement = 0 ∧
            1 / 10 ^ 4 < (monthStep ov mc s).2.balance then
          ([(monthStep ov mc s).1], (monthStep ov mc s).2)
        else
          ((monthStep ov mc s).1 ::
              (applyLoop ov fuel (mc + 1) (monthStep ov mc s).2).1,
            (applyLoop ov fuel (mc + 1) (monthStep ov mc s).2).2)
      else ([], s) := rfl

theorem applyLoop_length_le (ov : Overrides) :
    ∀ fuel mc s, (applyLoop ov fuel mc s).1.length ≤ fuel := by
  intro fuel
  induction fuel with
  | zero => intro mc s; simp [applyLoop_zero]
  | succ f ih =>
    intro mc s
    rw [applyLoop_succ]
    split_ifs with h1 h2
    · simp
    · simpa using Nat.succ_le_succ (ih (mc + 1) (monthStep ov mc s).2)
    · simp

theorem applyLoop_mem_inv (ov : Overrides) (Q : LoanState → Prop)
    (hQ : ∀ k s, Q s → Q (monthStep ov k s).2) :
    ∀ fuel mc s, Q s → ∀ row ∈ (applyLoop ov fuel mc s).1,
      ∃ k s0, Q s0 ∧ 1 / 10 ^ 4 < s0.balance ∧
        row = (monthStep ov k s0).1 := by
  intro fuel
  induction fuel with
  | zero => intro mc s _ row hrow; simp [applyLoop_zero] at hrow
  | succ f ih =>
    intro mc s hs row hrow
    rw [applyLoop_succ] at hrow
    split_ifs at hrow with h1 h2
    · simp only [List.mem_singleton] at hrow
      exact ⟨mc, s, hs, h1, hrow⟩
    · simp only [List.mem_cons] at hrow
      rcases hrow with h | h
      · exact ⟨mc, s, hs, h1, h⟩
      · exact ih (mc + 1) (monthStep ov mc s).2 (hQ mc s hs) row h
    · simp at hrow

theorem monthStep_totalDisb (ov : Overrides) (k : ℕ) (s : LoanState) :
    (monthStep ov k s).2.totalDisbursements =
      s.totalDisbursements +
        (if 0 < (monthStep ov k s).1.disbursement -
            (monthStep ov k s).1.prepayment
         then (monthStep ov k s).1.disbursement else 0) := by
  simp only [monthStep, netDisbursementOf]
  split_ifs with h
  · rfl
  · simp

theorem applyLoop_totalDisb (ov : Overrides) :
    ∀ fuel mc s, (applyLoop ov fuel mc s).2.totalDisbursements =
      s.totalDisbursements +
        ((applyLoop ov fuel mc s).1.map
          (fun r => if 0 < r.disbursement - r.prepayment
            then r.disbursement else 0)).sum := by
  intro fuel
  induction fuel with
  | zero => intro mc s; simp [applyLoop_zero]
  | succ f ih =>
    intro mc s
    rw [applyLoop_succ]
    split_ifs with h1 h2
    · simpa using monthStep_totalDisb ov mc s
    · simp only [List.map_cons, List.sum_cons]
      rw [ih (mc + 1) (monthStep ov mc s).2, monthStep_totalDisb ov mc s]
      ring
    · simp

theorem monthPrincipal_eq (s : LoanState) (h : 0 ≤ s.balance) :
    monthPrincipal s =
      min (max (s.currentEMI - monthInterest s) 0) s.balance := by
  simp only [monthPrincipal]
  by_cases h1 : s.currentEMI - monthInterest s < 0
  · rw [if_pos h1, if_neg (not_lt.mpr h), max_eq_right h1.le, min_eq_left h]
  · rw [if_neg h1]
    push_neg at h1
    rw [max_eq_left h1]
    by_cases h2 : s.currentEMI - monthInterest s > s.balance
    · rw [if_pos h2, min_eq_right h2.le]
    · push_neg at h2
      rw [if_neg (not_lt.mpr h2), min_eq_left h2]

theorem balanceAfterNet_eq (b n : ℝ) :
    balanceAfterNet b n = if n < 0 then max 0 (b + n) else b + n := by
  simp only [balanceAfterNet]
  rcases lt_trichotomy n 0 with h | h | h
  · rw [if_neg (by linarith), if_pos h, if_pos h]
  · subst h
    norm_num
  · rw [if_pos h, if_neg (by linarith)]

theorem monthPrincipal_le (s : LoanState) (h : 0 ≤ s.balance) :
    monthPrincipal s ≤ s.balance := by
  rw [monthPrincipal_eq s h]
  exact min_le_right _ _

theorem monthBalance2_nonneg (ov : Overrides) (k : ℕ) (s : LoanState)
    (h : 0 ≤ s.balance) : 0 ≤ monthBalance2 ov k s := by
  have h1 : 0 ≤ s.balance - monthPrincipal s := by
    have := monthPrincipal_le s h
    linarith
  simp only [monthBalance2, balanceAfterNet]
  split_ifs with h2 h3
  · linarith
  · exact le_max_left _ _
  · linarith

theorem monthStep_rate_nonneg (ov : Overrides)
    (hroi : ∀ i a, ov.roi i = some a → 0 ≤ a) (k : ℕ) (s : LoanState)
    (h : 0 ≤ s.monthlyRate) : 0 ≤ (monthStep ov k s).2.monthlyRate := by
  show 0 ≤ newRateOf ov k s
  unfold newRateOf
  cases hc : ov.roi (k - 1) with
  | none => simpa using h
  | some a =>
    have ha := hroi (k - 1) a hc
    positivity

theorem monthStep_accounting (ov : Overrides) (k : ℕ) (s : LoanState)
    (hb : 0 ≤ s.balance) :
    (monthStep ov k s).1.interest = s.balance * s.monthlyRate ∧
    (monthStep ov k s).1.principal =
      min (max (s.currentEMI - (monthStep ov k s).1.interest) 0) s.balance ∧
    (monthStep ov k s).1.balance =
      (if (monthStep ov k s).1.disbursement -
          (monthStep ov k s).1.prepayment < 0 then
        max 0 (s.balance - (monthStep ov k s).1.principal +
          ((monthStep ov k s).1.disbursement -
            (monthStep ov k s).1.prepayment))
      else s.balance - (monthStep ov k s).1.principal +
        ((monthStep ov k s).1.disbursement -
          (monthStep ov k s).1.prepayment)) := by
  refine ⟨rfl, monthPrincipal_eq s hb, ?_⟩
  have h2 := monthBalance2_nonneg ov k s hb
  show max (monthBalance2 ov k s) 0 = _
  rw [max_eq_left h2]
  show balanceAfterNet (s.balance - monthPrincipal s)
    (netDisbursementOf ov k) = _
  rw [balanceAfterNet_eq]
  rfl

theorem evalStep0 :
    monthStep ovEmpty 1 (⟨1000, 0, 1000, 1, 0, 0⟩ : LoanState) =
      (row0, ⟨0, 0, 1000, 1, 0, 0⟩) := by
  norm_num [monthStep, monthInterest, monthPrincipal, netDisbursementOf,
    monthBalance2, balanceAfterNet, newRateOf, roiChangedOf, codeEmiUpd,
    codeTarget, ovEmpty, row0, calculateRemainingMonths, calculateEMI]

theorem evalRun0 :
    (applyUserChanges 1000 0 1 ovEmpty).schedule = [row0] := by
  have hemi : calculateEMI 1000 ((0:ℝ) / 12 / 100) (max 1 1) = 1000 := by
    norm_num [calculateEMI]
  show (applyLoop ovEmpty 5000 1
    ⟨1000, (0:ℝ) / 12 / 100, calculateEMI 1000 ((0:ℝ) / 12 / 100) (max 1 1),
      1, 0, 0⟩).1 = [row0]
  rw [hemi]
  norm_num
  rw [show (5000:ℕ) = 4999 + 1 from by norm_num, applyLoop_succ]
  rw [evalStep0]
  norm_num [row0]
  rw [show (4999:ℕ) = 4998 + 1 from by norm_num, applyLoop_succ]
  norm_num

theorem evalStepMixed :
    monthStep ovMixed 1 (⟨100, 0, 100, 1, 0, 0⟩ : LoanState) =
      (rowMixed, ⟨0, 0, 100, 1, 0, 0⟩) := by
  norm_num [monthStep, monthInterest, monthPrincipal, netDisbursementOf,
    monthBalance2, balanceAfterNet, newRateOf, roiChangedOf, codeEmiUpd,
    codeTarget, ovMixed, rowMixed, calculateRemainingMonths, calculateEMI,
    Int.ceil_zero]

theorem evalLoopMixed :
    applyLoop ovMixed 5000 1 (⟨100, 0, 100, 1, 0, 0⟩ : LoanState) =
      ([rowMixed], ⟨0, 0, 100, 1, 0, 0⟩) := by
  rw [show (5000:ℕ) = 4999 + 1 from by norm_num, applyLoop_succ, evalStepMixed]
  norm_num [rowMixed]
  rw [show (4999:ℕ) = 4998 + 1 from by norm_num, applyLoop_succ]
  norm_num

theorem evalRunMixed :
    (applyUserChanges 100 0 1 ovMixed).schedule = [rowMixed] ∧
    (applyUserChanges 100 0 1 ovMixed).totalDisbursements = 0 := by
  have hemi : calculateEMI 100 ((0:ℝ) / 12 / 100) (max 1 1) = 100 := by
    norm_num [calculateEMI]
  constructor
  · show (applyLoop ovMixed 5000 1
      ⟨100, (0:ℝ) / 12 / 100, calculateEMI 100 ((0:ℝ) / 12 / 100) (max 1 1),
        1, 0, 0⟩).1 = [rowMixed]
    rw [hemi]
    norm_num
    rw [evalLoopMixed]
  · show (applyLoop ovMixed 5000 1
      ⟨100, (0:ℝ) / 12 / 100, calculateEMI 100 ((0:ℝ) / 12 / 100) (max 1 1),
        1, 0, 0⟩).2.totalDisbursements = 0
    rw [hemi]
    norm_num
    rw [evalLoopMixed]

theorem evalStepK1a :
    monthStep ovPrepayKey1 1 (⟨300, 0, 100, 3, 0, 0⟩ : LoanState) =
      (rowK1a, ⟨200, 0, 100, 3, 0, 0⟩) := by
  norm_num [monthStep, monthInterest, monthPrincipal, netDisbursementOf,
    monthBalance2, balanceAfterNet, newRateOf, roiChangedOf, codeEmiUpd,
    codeTarget, ovPrepayKey1, rowK1a, calculateRemainingMonths, calculateEMI]

theorem evalStepK1b :
    monthStep ovPrepayKey1 2 (⟨200, 0, 100, 3, 0, 0⟩ : LoanState) =
      (rowK1b, ⟨0, 0, 100, 2, 0, 0⟩) := by
  norm_num [monthStep, monthInterest, monthPrincipal, netDisbursementOf,
    monthBalance2, balanceAfterNet, newRateOf, roiChangedOf, codeEmiUpd,
    codeTarget, ovPrepayKey1, rowK1b, calculateRemainingMonths, calculateEMI,
    Int.ceil_zero]

theorem evalRunK1 :
    (applyUserChanges 300 0 3 ovPrepayKey1).schedule = [rowK1a, rowK1b] := by
  have hemi : calculateEMI 300 ((0:ℝ) / 12 / 100) (max 1 3) = 100 := by
    norm_num [calculateEMI]
  show (applyLoop ovPrepayKey1 5000 1
    ⟨300, (0:ℝ) / 12 / 100, calculateEMI 300 ((0:ℝ) / 12 / 100) (max 1 3),
      3, 0, 0⟩).1 = [rowK1a, rowK1b]
  rw [hemi]
  norm_num
  rw [show (5000:ℕ) = 4999 + 1 from by norm_num, applyLoop_succ, evalStepK1a]
  norm_num [rowK1a]
  rw [show (4999:ℕ) = 4998 + 1 from by norm_num, applyLoop_succ, evalStepK1b]
  norm_num [rowK1b]
  rw [show (4998:ℕ) = 4997 + 1 from by norm_num, applyLoop_succ]
  norm_num

theorem evalStepT0 :
    monthStep ovEmpty 1 (⟨1000, 0, 1000, 0, 0, 0⟩ : LoanState) =
      (row0, ⟨0, 0, 1000, 0, 0, 0⟩) := by
  norm_num [monthStep, monthInterest, monthPrincipal, netDisbursementOf,
    monthBalance2, balanceAfterNet, newRateOf, roiChangedOf, codeEmiUpd,
    codeTarget, ovEmpty, row0, calculateRemainingMonths, calculateEMI]

theorem evalRunT0 :
    (applyUserChanges 1000 0 0 ovEmpty).schedule = [row0] := by
  have hemi : calculateEMI 1000 ((0:ℝ) / 12 / 100) (max 1 0) = 1000 := by
    norm_num [calculateEMI]
  show (applyLoop ovEmpty 5000 1
    ⟨1000, (0:ℝ) / 12 / 100, calculateEMI 1000 ((0:ℝ) / 12 / 100) (max 1 0),
      0, 0, 0⟩).1 = [row0]
  rw [hemi]
  norm_num
  rw [show (5000:ℕ) = 4999 + 1 from by norm_num, applyLoop_succ, evalStepT0]
  norm_num [row0]
  rw [show (4999:ℕ) = 4998 + 1 from by norm_num, applyLoop_succ]
  norm_num

theorem baselineLoop_succ (emi monthlyRate : ℝ) (fuel i : ℕ)
    (balance totalInterest : ℝ) :
    baselineLoop emi monthlyRate (fuel + 1) i balance totalInterest =
      (let interest := balance * monthlyRate
       let p0 := emi - interest
       let p1 := if p0 < 0 then 0 else p0
       let principal := if p1 > balance then balance else p1
       let balance2 := balance - principal
       let row : ScheduleRow :=
         { monthIndex := i, emi := emi, interest := interest,
           principal := principal, disbursement := 0, prepayment := 0,
           roiChange := none, balance := max balance2 0 }
       if balance2 ≤ 1 / 10 ^ 4 then ([row], totalInterest + interest)
       else
         let rest := baselineLoop emi monthlyRate fuel (i + 1) balance2
           (totalInterest + interest)
         (row :: rest.1, rest.2)) := rfl

theorem evalBaselineNegP : (generateBaseline (-1000) 0 12).1 = [rowNegP] := by
  have hemi : calculateEMI (-1000) ((0:ℝ) / 12 / 100) 12 = 0 := by
    norm_num [calculateEMI]
  show (baselineLoop (calculateEMI (-1000) ((0:ℝ) / 12 / 100) 12)
    ((0:ℝ) / 12 / 100) (Int.toNat 12) 1 (-1000) 0).1 = [rowNegP]
  rw [hemi]
  norm_num
  rw [show Int.toNat 12 = 11 + 1 from by decide, baselineLoop_succ]
  norm_num [rowNegP]

/-! ## Claim theorems -/

/-- C3: calculateEMI returns 0 when months is at most 0 or the principal is
at most 0; returns principal divided by months when the monthly rate is 0;
and otherwise returns the annuity payment
principal * r * (1+r)^months / ((1+r)^months - 1) with r the monthly
rate. -/
theorem C3_calculateEMI_cases (P r : ℝ) (n : ℤ) :
    ((n ≤ 0 ∨ P ≤ 0) → calculateEMI P r n = 0) ∧
    (0 < n → 0 < P → r = 0 → calculateEMI P r n = P / (n : ℝ)) ∧
    (0 < n → 0 < P → r ≠ 0 →
      calculateEMI P r n = P * r * (1 + r) ^ n / ((1 + r) ^ n - 1)) := by
  refine ⟨?_, ?_, ?_⟩
  · rintro (h | h) <;> simp [calculateEMI, h]
  · intro hn hP h0
    simp [calculateEMI, not_le.mpr hn, not_le.mpr hP, h0]
  · intro hn hP h0
    simp [calculateEMI, not_le.mpr hn, not_le.mpr hP, h0]

/-- Witness for C3: the straight line case at principal 5, rate 0 and two
months gives 5 / 2. -/
theorem C3_witness : calculateEMI 5 0 2 = 5 / ((2 : ℤ) : ℝ) :=
  (C3_calculateEMI_cases 5 0 2).2.1 (by norm_num) (by norm_num) rfl

/-- C6: the walk of applyUserChanges terminates for every input and the
returned schedule has at most SAFE_MONTH_CAP = 5000 rows; the function is
total in the embedding, so every input yields a (possibly truncated)
schedule and no error escape exists. -/
theorem C6_schedule_length_le_cap (P annualRate : ℝ) (tenure : ℤ)
    (ov : Overrides) :
    (applyUserChanges P annualRate tenure ov).schedule.length ≤ 5000 := by
  simpa [applyUserChanges] using applyLoop_length_le ov 5000 1 _

/-- C8 amended: totalDisbursements sums the disbursement of exactly those
emitted months whose net delta (disbursement minus prepayment) is positive,
and completionMonth equals the number of rows in the returned schedule. -/
theorem C8_amended_totals (P annualRate : ℝ) (tenure : ℤ) (ov : Overrides) :
    (applyUserChanges P annualRate tenure ov).totalDisbursements =
      ((applyUserChanges P annualRate tenure ov).schedule.map
        (fun r => if 0 < r.disbursement - r.prepayment
          then r.disbursement else 0)).sum ∧
    (applyUserChanges P annualRate tenure ov).completionMonth =
      (applyUserChanges P annualRate tenure ov).schedule.length := by
  constructor
  · have h := applyLoop_totalDisb ov 5000 1
      ⟨P, annualRate / 12 / 100,
        calculateEMI P (annualRate / 12 / 100) (max 1 tenure), tenure, 0, 0⟩
    simpa [applyUserChanges] using h
  · rfl

/-- C1: every month emitted by the walk of applyUserChanges, under
non-negative principal, rate and overrides, satisfies the accounting
identities: interest equals the opening balance times the monthly rate in
force, principal equals the EMI minus interest clamped into the interval
from 0 to the opening balance, and the closing balance is the opening
balance reduced by that principal with the net override delta applied,
floored at 0 when the net delta is negative. -/
theorem C1_month_accounting (P annualRate : ℝ) (tenure : ℤ) (ov : Overrides)
    (hP : 0 ≤ P) (hrate : 0 ≤ annualRate)
    (hov : ∀ i, 0 ≤ ov.disb i ∧ 0 ≤ ov.prepay i ∧
      ∀ a, ov.roi i = some a → 0 ≤ a)
    (row : ScheduleRow)
    (hrow : row ∈ (applyUserChanges P annualRate tenure ov).schedule) :
    ∃ s0 : LoanState, 0 ≤ s0.balance ∧
      row = (monthStep ov row.monthIndex s0).1 ∧
      row.interest = s0.balance * s0.monthlyRate ∧
      row.principal = min (max (s0.currentEMI - row.interest) 0) s0.balance ∧
      row.balance =
        (if row.disbursement - row.prepayment < 0 then
          max 0 (s0.balance - row.principal +
            (row.disbursement - row.prepayment))
        else s0.balance - row.principal +
          (row.disbursement - row.prepayment)) := by
  simp only [applyUserChanges] at hrow
  obtain ⟨k, s0, -, hbal, heq⟩ :=
    applyLoop_mem_inv ov (fun _ => True) (fun _ _ _ => trivial) 5000 1 _
      trivial row hrow
  have hb : (0:ℝ) ≤ s0.balance := le_of_lt (lt_trans (by norm_num) hbal)
  obtain ⟨h1, h2, h3⟩ := monthStep_accounting ov k s0 hb
  have hk : row.monthIndex = k := by rw [heq]; rfl
  refine ⟨s0, hb, ?_, ?_, ?_, ?_⟩
  · rw [hk, heq]
  · rw [heq]; exact h1
  · rw [heq]; exact h2
  · rw [heq]; exact h3

/-- Witness for C1: the one-month run with principal 1000, zero rate,
tenure 1 and no overrides emits row0, and C1 holds for it. -/
theorem C1_witness :
    ∃ s0 : LoanState, 0 ≤ s0.balance ∧
      row0 = (monthStep ovEmpty row0.monthIndex s0).1 ∧
      row0.interest = s0.balance * s0.monthlyRate ∧
      row0.principal =
        min (max (s0.currentEMI - row0.interest) 0) s0.balance ∧
      row0.balance =
        (if row0.disbursement - row0.prepayment < 0 then
          max 0 (s0.balance - row0.principal +
            (row0.disbursement - row0.prepayment))
        else s0.balance - row0.principal +
          (row0.disbursement - row0.prepayment)) :=
  C1_month_accounting 1000 0 1 ovEmpty (by norm_num) (by norm_num)
    (fun i => ⟨le_refl 0, le_refl 0, fun a ha => by simp [ovEmpty] at ha⟩)
    row0 (by rw [evalRun0]; exact List.mem_singleton.mpr rfl)

/-- C7: for terms within the policy ranges and a non-negative override
set, every emitted row has non-negative interest, a principal between 0 and
the opening balance, and a non-negative balance; and whenever
calculateRemainingMonths signals Infinity (the none case), the walk holds
the previous tenure target instead of propagating it. -/
theorem C7_row_invariants (P annualRate : ℝ) (tenure : ℤ) (ov : Overrides)
    (hP : 0 < P) (hr0 : 0 ≤ annualRate) (hr50 : annualRate ≤ 50)
    (ht1 : 1 ≤ tenure) (ht600 : tenure ≤ 600)
    (hd : ∀ i, 0 ≤ ov.disb i) (hp : ∀ i, 0 ≤ ov.prepay i)
    (hroi : ∀ i a, ov.roi i = some a → 0 ≤ a) :
    (∀ row ∈ (applyUserChanges P annualRate tenure ov).schedule,
      0 ≤ row.interest ∧ 0 ≤ row.principal ∧
      (∃ s0 : LoanState, row = (monthStep ov row.monthIndex s0).1 ∧
        row.principal ≤ s0.balance) ∧
      0 ≤ row.balance) ∧
    (∀ (k : ℕ) (s : LoanState),
      calculateRemainingMonths (monthBalance2 ov k s)
        (monthStep ov k s).2.currentEMI (newRateOf ov k s) = none →
      (monthStep ov k s).2.targetRemainingMonths =
        s.targetRemainingMonths) := by
  constructor
  · intro row hrow
    simp only [applyUserChanges] at hrow
    obtain ⟨k, s0, hQ, hbal, heq⟩ :=
      applyLoop_mem_inv ov (fun s => 0 ≤ s.monthlyRate)
        (monthStep_rate_nonneg ov hroi) 5000 1 _
        (div_nonneg (div_nonneg hr0 (by norm_num)) (by norm_num)) row hrow
    have hb : (0:ℝ) ≤ s0.balance := le_of_lt (lt_trans (by norm_num) hbal)
    obtain ⟨h1, h2, h3⟩ := monthStep_accounting ov k s0 hb
    have hk : row.monthIndex = k := by rw [heq]; rfl
    refine ⟨?_, ?_, ⟨s0, by rw [hk, heq], ?_⟩, ?_⟩
    · rw [heq, h1]; exact mul_nonneg hb hQ
    · rw [heq, h2]
      exact le_min (le_max_right _ _) hb
    · rw [heq, h2]
      exact min_le_right _ _
    · rw [heq]
      exact le_max_right _ _
  · intro k s hnone
    have hnone2 : calculateRemainingMonths (monthBalance2 ov k s)
        (codeEmiUpd ov k s).1 (newRateOf ov k s) = none := hnone
    show codeTarget ov k s = s.targetRemainingMonths
    simp only [codeTarget]
    rw [hnone2]
    split_ifs <;> simp

theorem codeEmiUpd_eq (ov : Overrides) (mc : ℕ) (s : LoanState) :
    codeEmiUpd ov mc s =
      if 0 < netDisbursementOf ov mc ∧ 1 / 10 ^ 4 < monthBalance2 ov mc s ∧
          0 < s.targetRemainingMonths - (mc : ℤ) ∧
          0 < calculateEMI (monthBalance2 ov mc s) s.monthlyRate
            (s.targetRemainingMonths - (mc : ℤ)) then
        (calculateEMI (monthBalance2 ov mc s) s.monthlyRate
          (s.targetRemainingMonths - (mc : ℤ)), true)
      else (s.currentEMI, false) := by
  simp only [codeEmiUpd]
  split_ifs <;> first | rfl | tauto

theorem codeTarget_eq (ov : Overrides) (mc : ℕ) (s : LoanState) :
    codeTarget ov mc s =
      if roiChangedOf ov mc then
        match calculateRemainingMonths (monthBalance2 ov mc s)
            (codeEmiUpd ov mc s).1 (newRateOf ov mc s) with
        | some m => (mc : ℤ) + ⌈m⌉
        | none => s.targetRemainingMonths
      else if netDisbursementOf ov mc < 0 ∧
          (codeEmiUpd ov mc s).2 = false then
        match calculateRemainingMonths (monthBalance2 ov mc s)
            (codeEmiUpd ov mc s).1 (newRateOf ov mc s) with
        | some m => (mc : ℤ) + ⌈m⌉
        | none => s.targetRemainingMonths
      else s.targetRemainingMonths := by
  simp only [codeTarget]
  cases hroi : roiChangedOf ov mc with
  | true => simp
  | false => simp

/-- C2 counterexample: in month 1 of the state stateC2 with the single
disbursement override ovDisb500, the net delta is 500 (positive) and the
balance after the delta is 1400 (positive), but zero months remain until
the tenure target of 1; the source keeps the EMI at 100, while the policy
as the claim words it recomputes the EMI via calculateEMI over 0 remaining
months and so would set it to 0. -/
theorem C2_counterexample :
    (monthStep ovDisb500 1 stateC2).2.currentEMI = 100 ∧
    (claimedPolicy stateC2.monthlyRate (newRateOf ovDisb500 1 stateC2)
      (roiChangedOf ovDisb500 1) (netDisbursementOf ovDisb500 1)
      (monthBalance2 ovDisb500 1 stateC2) stateC2.currentEMI
      stateC2.targetRemainingMonths 1).1 = 0 ∧
    (monthStep ovDisb500 1 stateC2).2.currentEMI ≠
      (claimedPolicy stateC2.monthlyRate (newRateOf ovDisb500 1 stateC2)
        (roiChangedOf ovDisb500 1) (netDisbursementOf ovDisb500 1)
        (monthBalance2 ovDisb500 1 stateC2) stateC2.currentEMI
        stateC2.targetRemainingMonths 1).1 := by
  have h1 : (monthStep ovDisb500 1 stateC2).2.currentEMI = 100 := by
    show (codeEmiUpd ovDisb500 1 stateC2).1 = 100
    norm_num [codeEmiUpd, netDisbursementOf, monthBalance2, monthPrincipal,
      monthInterest, balanceAfterNet, ovDisb500, stateC2]
  have h2 : (claimedPolicy stateC2.monthlyRate (newRateOf ovDisb500 1 stateC2)
      (roiChangedOf ovDisb500 1) (netDisbursementOf ovDisb500 1)
      (monthBalance2 ovDisb500 1 stateC2) stateC2.currentEMI
      stateC2.targetRemainingMonths 1).1 = 0 := by
    norm_num [claimedPolicy, netDisbursementOf, monthBalance2, monthPrincipal,
      monthInterest, balanceAfterNet, newRateOf, roiChangedOf, ovDisb500,
      stateC2, calculateEMI]
  exact ⟨h1, h2, by rw [h1, h2]; norm_num⟩

/-- C2 amended: the EMI and tenure re-derivation of every month of the walk
follows the order the claim states, with the EMI recompute on a net
disbursement additionally guarded as in the source: it happens only when at
least one month remains until the tenure target and the recomputed EMI is
positive, and otherwise the EMI is held with no EMI change recorded. -/
theorem C2_amended_policy_order (ov : Overrides) (mc : ℕ) (s : LoanState) :
    ((monthStep ov mc s).2.currentEMI,
      (monthStep ov mc s).2.targetRemainingMonths) =
      amendedPolicy s.monthlyRate (newRateOf ov mc s) (roiChangedOf ov mc)
        (netDisbursementOf ov mc) (monthBalance2 ov mc s) s.currentEMI
        s.targetRemainingMonths mc := by
  show ((codeEmiUpd ov mc s).1, codeTarget ov mc s) = _
  rw [codeTarget_eq, codeEmiUpd_eq]
  rfl

/-- Witness for C7 at principal 1000, zero rate, tenure 1 and no
overrides, including a state where calculateRemainingMonths signals
Infinity (zero EMI) so the tenure target of 5 is held. -/
theorem C7_witness :
    ((0:ℝ) < 1000 ∧ (0:ℝ) ≤ 0 ∧ (0:ℝ) ≤ 50 ∧ (1:ℤ) ≤ 1 ∧ (1:ℤ) ≤ 600) ∧
    (∀ row ∈ (applyUserChanges 1000 0 1 ovEmpty).schedule,
      0 ≤ row.interest ∧ 0 ≤ row.principal ∧
      (∃ s0 : LoanState, row = (monthStep ovEmpty row.monthIndex s0).1 ∧
        row.principal ≤ s0.balance) ∧
      0 ≤ row.balance) ∧
    (∀ (k : ℕ) (s : LoanState),
      calculateRemainingMonths (monthBalance2 ovEmpty k s)
        (monthStep ovEmpty k s).2.currentEMI (newRateOf ovEmpty k s) = none →
      (monthStep ovEmpty k s).2.targetRemainingMonths =
        s.targetRemainingMonths) :=
  ⟨⟨by norm_num, le_refl 0, by norm_num, le_refl 1, by norm_num⟩,
    (C7_row_invariants 1000 0 1 ovEmpty (by norm_num) (le_refl 0)
      (by norm_num) (le_refl 1) (by norm_num) (fun _ => le_refl 0)
      (fun _ => le_refl 0) (fun i a ha => by simp [ovEmpty] at ha)).1,
    (C7_row_invariants 1000 0 1 ovEmpty (by norm_num) (le_refl 0)
      (by norm_num) (le_refl 1) (by norm_num) (fun _ => le_refl 0)
      (fun _ => le_refl 0) (fun i a ha => by simp [ovEmpty] at ha)).2⟩

/-- C4 counterexample: at principal 1/10^13, monthly rate 1 and one month,
the EMI of the annuity formula exceeds the interest only payment by just
1/10^13, which is inside the 1e-12 tolerance of calculateRemainingMonths,
so the inversion returns Infinity (none) instead of a value whose ceiling
is 1: the claimed left-inverse identity fails as stated for all positive
principals and rates. -/
theorem C4_counterexample :
    calculateRemainingMonths (1 / 10 ^ 13)
      (calculateEMI (1 / 10 ^ 13) 1 1) 1 = none ∧
    ¬ ∃ m : ℝ, calculateRemainingMonths (1 / 10 ^ 13)
        (calculateEMI (1 / 10 ^ 13) 1 1) 1 = some m ∧ ⌈m⌉ = (1:ℤ) := by
  have hemi : calculateEMI (1 / 10 ^ 13) 1 1 = 2 / 10 ^ 13 := by
    norm_num [calculateEMI, zpow_one]
  have hnone : calculateRemainingMonths (1 / 10 ^ 13)
      (calculateEMI (1 / 10 ^ 13) 1 1) 1 = none := by
    rw [hemi]
    norm_num [calculateRemainingMonths]
  refine ⟨hnone, ?_⟩
  rintro ⟨m, hm, -⟩
  rw [hnone] at hm
  exact Option.noConfusion hm

/-- C4 amended: calculateRemainingMonths is the left-inverse of
calculateEMI for positive rates whenever the derived EMI clears the
interest only payment by more than the 1e-12 tolerance: with
emi = calculateEMI(P, r, n), the inversion returns exactly the real number
n, whose ceiling is n. -/
theorem C4_amended_left_inverse (P r : ℝ) (n : ℕ) (hP : 0 < P) (hr : 0 < r)
    (hn : 1 ≤ n)
    (hguard : P * r + 1 / 10 ^ 12 < calculateEMI P r (n : ℤ)) :
    ∃ m : ℝ, calculateRemainingMonths P (calculateEMI P r (n : ℤ)) r =
      some m ∧ m = (n : ℝ) ∧ ⌈m⌉ = (n : ℤ) := by
  have hn0 : ¬ ((n : ℤ) ≤ 0) := by omega
  have hq1 : (1:ℝ) < 1 + r := by linarith
  set q : ℝ := (1 + r) ^ (n : ℤ) with hq
  have hqgt : 1 < q := by
    rw [hq, zpow_natCast]
    exact one_lt_pow₀ hq1 (by omega)
  have hq1ne : q - 1 ≠ 0 := by
    have : 0 < q - 1 := by linarith
    exact this.ne'
  have hemi : calculateEMI P r (n : ℤ) = P * r * q / (q - 1) := by
    simp only [calculateEMI]
    rw [if_neg hn0, if_neg (not_le.mpr hP), if_neg hr.ne']
  have hPr : 0 < P * r := mul_pos hP hr
  have hemi_pos : 0 < calculateEMI P r (n : ℤ) := by
    have h12 : (0:ℝ) < 1 / 10 ^ 12 := by norm_num
    linarith
  have hsub : calculateEMI P r (n : ℤ) - P * r = P * r / (q - 1) := by
    rw [hemi]
    field_simp
    ring
  have hratio : calculateEMI P r (n : ℤ) /
      (calculateEMI P r (n : ℤ) - P * r) = q := by
    rw [hsub, hemi]
    rw [div_div_div_comm, div_self hq1ne, div_one,
      mul_div_cancel_left₀ q hPr.ne']
  have hcrm : calculateRemainingMonths P (calculateEMI P r (n : ℤ)) r =
      some (Real.log (calculateEMI P r (n : ℤ) /
        (calculateEMI P r (n : ℤ) - P * r)) / Real.log (1 + r)) := by
    simp only [calculateRemainingMonths]
    rw [if_neg (not_le.mpr hP), if_neg (not_le.mpr hemi_pos),
      if_neg hr.ne', if_neg (not_le.mpr hguard)]
  have hlogne : Real.log (1 + r) ≠ 0 := (Real.log_pos hq1).ne'
  refine ⟨(n : ℝ), ?_, rfl, Int.ceil_natCast n⟩
  rw [hcrm]
  congr 1
  rw [hratio, hq, zpow_natCast, Real.log_pow, mul_div_assoc,
    div_self hlogne, mul_one]

/-- Witness for C4 amended at principal 1000, monthly rate 1/2 and one
month, where the EMI is 1500 and clears the interest only payment of 500
by far more than the tolerance. -/
theorem C4_witness :
    ((0:ℝ) < 1000 ∧ (0:ℝ) < 1/2 ∧
      1000 * (1/2 : ℝ) + 1 / 10 ^ 12 <
        calculateEMI 1000 (1/2) ((1:ℕ) : ℤ)) ∧
    (∃ m : ℝ, calculateRemainingMonths 1000
        (calculateEMI 1000 (1/2) ((1:ℕ) : ℤ)) (1/2) = some m ∧
      m = ((1:ℕ) : ℝ) ∧ ⌈m⌉ = ((1:ℕ) : ℤ)) :=
  ⟨⟨by norm_num, by norm_num, by norm_num [calculateEMI, zpow_one]⟩,
    C4_amended_left_inverse 1000 (1/2) 1 (by norm_num) (by norm_num)
      (le_refl 1) (by norm_num [calculateEMI, zpow_one])⟩

/-- C5 counterexample: in the run with principal 300, zero rate, tenure 3
and a single prepayment of 100 stored at key 1 of the override set, the
emitted month with monthIndex 1 carries no prepayment at all (its closing
balance is the plain EMI reduction 300 - 100 = 200), while the stored
prepayment lands in the month with monthIndex 2: override keys are not
1-based month indices. -/
theorem C5_counterexample :
    (applyUserChanges 300 0 3 ovPrepayKey1).schedule = [rowK1a, rowK1b] ∧
    ovPrepayKey1.prepay 1 = 100 ∧
    rowK1a.monthIndex = 1 ∧ rowK1a.prepayment = 0 ∧ rowK1a.balance = 200 ∧
    rowK1b.monthIndex = 2 ∧ rowK1b.prepayment = 100 :=
  ⟨evalRunK1, by norm_num [ovPrepayKey1], rfl, rfl, rfl, rfl, rfl⟩

/-- C5 amended: overrides are keyed by 0-based row position (the data-idx
attribute): the entry at key monthIndex - 1 supplies the disbursement,
prepayment and rate change recorded and applied in the emitted month with
that monthIndex, and a rate change replaces the monthly rate carried into
the next month while the interest of the current month still uses the old
rate. -/
theorem C5_amended_keying (P annualRate : ℝ) (tenure : ℤ) (ov : Overrides)
    (row : ScheduleRow)
    (hrow : row ∈ (applyUserChanges P annualRate tenure ov).schedule) :
    row.disbursement = ov.disb (row.monthIndex - 1) ∧
    row.prepayment = ov.prepay (row.monthIndex - 1) ∧
    row.roiChange = ov.roi (row.monthIndex - 1) ∧
    ∃ s0 : LoanState, row = (monthStep ov row.monthIndex s0).1 ∧
      row.interest = s0.balance * s0.monthlyRate ∧
      (monthStep ov row.monthIndex s0).2.monthlyRate =
        newRateOf ov row.monthIndex s0 := by
  simp only [applyUserChanges] at hrow
  obtain ⟨k, s0, -, hbal, heq⟩ :=
    applyLoop_mem_inv ov (fun _ => True) (fun _ _ _ => trivial) 5000 1 _
      trivial row hrow
  have hk : row.monthIndex = k := by rw [heq]; rfl
  refine ⟨?_, ?_, ?_, s0, ?_, ?_, rfl⟩
  · rw [hk, heq]; rfl
  · rw [hk, heq]; rfl
  · rw [hk, heq]; rfl
  · rw [hk, heq]
  · rw [heq]; rfl

/-- Witness for C5 amended: the second row of the ovPrepayKey1 run records
exactly the override entries stored at key monthIndex - 1 = 1. -/
theorem C5_witness :
    rowK1b.disbursement = ovPrepayKey1.disb (rowK1b.monthIndex - 1) ∧
    rowK1b.prepayment = ovPrepayKey1.prepay (rowK1b.monthIndex - 1) ∧
    rowK1b.roiChange = ovPrepayKey1.roi (rowK1b.monthIndex - 1) ∧
    ∃ s0 : LoanState,
      rowK1b = (monthStep ovPrepayKey1 rowK1b.monthIndex s0).1 ∧
      rowK1b.interest = s0.balance * s0.monthlyRate ∧
      (monthStep ovPrepayKey1 rowK1b.monthIndex s0).2.monthlyRate =
        newRateOf ovPrepayKey1 rowK1b.monthIndex s0 :=
  C5_amended_keying 300 0 3 ovPrepayKey1 rowK1b
    (by rw [evalRunK1]; simp)

/-- C8 counterexample: with principal 100, zero rate, tenure 1 and the
override set holding a disbursement of 50 and a prepayment of 60 in the
same (only) month, the gross sum of all disbursement values in the
override set is 50, yet the published totalDisbursements is 0, because the
source accumulates the disbursement only when the net delta of the month
is positive. -/
theorem C8_counterexample :
    (applyUserChanges 100 0 1 ovMixed).totalDisbursements = 0 ∧
    ovMixed.disb 0 = 50 ∧
    (applyUserChanges 100 0 1 ovMixed).totalDisbursements ≠
      ovMixed.disb 0 := by
  refine ⟨evalRunMixed.2, by norm_num [ovMixed], ?_⟩
  rw [evalRunMixed.2, show ovMixed.disb 0 = 50 from by norm_num [ovMixed]]
  norm_num

/-- C9 counterexample: for a negative principal generateBaseline emits one
row (not zero rows), and for a zero tenure with positive principal
applyUserChanges emits one row (not zero rows): the degenerate cases do
not all produce empty walks. -/
theorem C9_counterexample :
    (generateBaseline (-1000) 0 12).1.length = 1 ∧
    (applyUserChanges 1000 0 0 ovEmpty).schedule.length = 1 := by
  constructor
  · rw [evalBaselineNegP]; rfl
  · rw [evalRunT0]; rfl

/-- C9 amended: calculateEMI returns 0 for a nonpositive tenure or a
nonpositive principal; the walk of applyUserChanges produces no rows for a
negative principal; and the walk of generateBaseline produces no rows for
a nonpositive tenure. (For a negative principal generateBaseline emits a
single closing row, and for a nonpositive tenure applyUserChanges
amortizes with a one-month EMI.) -/
theorem C9_amended_degenerate (P annualRate : ℝ) (n : ℤ) (ov : Overrides) :
    ((n ≤ 0 ∨ P ≤ 0) → calculateEMI P annualRate n = 0) ∧
    (P < 0 → (applyUserChanges P annualRate n ov).schedule = []) ∧
    (n ≤ 0 → (generateBaseline P annualRate n).1 = []) := by
  refine ⟨?_, ?_, ?_⟩
  · rintro (h | h) <;> simp [calculateEMI, h]
  · intro hP
    show (applyLoop ov 5000 1
      ⟨P, annualRate / 12 / 100,
        calculateEMI P (annualRate / 12 / 100) (max 1 n), n, 0, 0⟩).1 = []
    rw [show (5000:ℕ) = 4999 + 1 from by norm_num, applyLoop_succ,
      if_neg (not_lt.mpr (le_trans hP.le (by norm_num)))]
  · intro hn
    show (baselineLoop (calculateEMI P (annualRate / 12 / 100) n)
      (annualRate / 12 / 100) n.toNat 1 P 0).1 = []
    rw [Int.toNat_of_nonpos hn]
    rfl

/-- Witness for C9 amended at principal -5 and tenure -2. -/
theorem C9_witness :
    calculateEMI (-5) 3 (-2) = 0 ∧
    (applyUserChanges (-5) 3 (-2) ovEmpty).schedule = [] ∧
    (generateBaseline (-5) 3 (-2)).1 = [] :=
  ⟨(C9_amended_degenerate (-5) 3 (-2) ovEmpty).1 (Or.inl (by norm_num)),
    (C9_amended_degenerate (-5) 3 (-2) ovEmpty).2.1 (by norm_num),
    (C9_amended_degenerate (-5) 3 (-2) ovEmpty).2.2 (by norm_num)⟩

/-- C10: when the net delta of a month is negative and exceeds in size the
balance left after the EMI driven principal reduction, the walk floors the
balance at 0, silently discarding the excess, while the emitted row still
records the full entered prepayment read from the override set. -/
theorem C10_excess_prepayment (ov : Overrides) (mc : ℕ) (s : LoanState)
    (hnet : netDisbursementOf ov mc < 0)
    (hexcess : s.balance - monthPrincipal s + netDisbursementOf ov mc < 0) :
    (monthStep ov mc s).2.balance = 0 ∧
    (monthStep ov mc s).1.balance = 0 ∧
    (monthStep ov mc s).1.prepayment = ov.prepay (mc - 1) := by
  have hb2 : monthBalance2 ov mc s = 0 := by
    simp only [monthBalance2, balanceAfterNet]
    rw [if_neg (not_lt.mpr hnet.le), if_pos hnet]
    exact max_eq_left hexcess.le
  refine ⟨hb2, ?_, rfl⟩
  show max (monthBalance2 ov mc s) 0 = 0
  rw [hb2]
  exact max_self 0

/-- Witness for C10: balance 100, EMI 10, zero rate and a prepayment of
500; the excess 410 is discarded, the closing balance is 0 and the row
records the full 500. -/
theorem C10_witness :
    (netDisbursementOf ovPrepay500 1 < 0 ∧
      stateC10.balance - monthPrincipal stateC10 +
        netDisbursementOf ovPrepay500 1 < 0) ∧
    ((monthStep ovPrepay500 1 stateC10).2.balance = 0 ∧
      (monthStep ovPrepay500 1 stateC10).1.balance = 0 ∧
      (monthStep ovPrepay500 1 stateC10).1.prepayment =
        ovPrepay500.prepay 0) :=
  ⟨⟨by norm_num [netDisbursementOf, ovPrepay500],
    by norm_num [stateC10, monthPrincipal, monthInterest,
      netDisbursementOf, ovPrepay500]⟩,
    C10_excess_prepayment ovPrepay500 1 stateC10
      (by norm_num [netDisbursementOf, ovPrepay500])
      (by norm_num [stateC10, monthPrincipal, monthInterest,
        netDisbursementOf, ovPrepay500])⟩

end LoanApp
